import Mathlib

/-!
Verification of the travel-planner orchestration core against its
natural-language specification.  The Rust sources are shallowly embedded:
pure helpers become Lean functions, the network boundary becomes explicit
parameters (the outcome of the HTTP exchange is an input), the shared
token cache becomes explicit state passing for the sequential claims and a
small labelled transition system for the concurrency claim, and the
streaming loop of `stream_handler` becomes a fuel-indexed recursion over an
abstract `handle_request`.
-/

namespace Explorify

/-! ## Currency (src/utils.rs, `Currency` and `parse_currency`)

Amounts in the source are `f32` produced by `str::parse`; the embedding
keeps the parse outcome abstract (`parseAmount` stands for
`amount.parse::<f32>()`, `none` meaning the parse errs) over an arbitrary
amount type, so the claims hold for the real float parser in particular. -/

inductive Currency (A : Type) where
  | Inr (amount : A)
  | Usd (amount : A)
  | Eur (amount : A)
  deriving DecidableEq, Repr

/-- `str::to_uppercase`, as a character map.  (The Unicode cases beyond
ASCII play no role here: the uppercased string is only compared against the
three ASCII codes.) -/
def to_uppercase (s : String) : String :=
  ⟨s.data.map Char.toUpper⟩

/-- Embedding of `Currency::parse_currency`: parse the amount string first
(`amount.parse::<f32>()?`), then match the uppercased code against the three
supported codes; any other code is an error. -/
def parse_currency {A : Type} (parseAmount : String → Option A)
    (code : String) (amount : String) : Except String (Currency A) :=
  match parseAmount amount with
  | none => .error "amount parse error"
  | some a =>
    let c := to_uppercase code
    if c = "USD" then .ok (.Usd a)
    else if c = "INR" then .ok (.Inr a)
    else if c = "EUR" then .ok (.Eur a)
    else .error ("Unsupported currency: " ++ code)

/-! ## IataCode (src/utils.rs, `IataCode::new`) -/

/-- `char::is_ascii_uppercase` of Rust. -/
def isAsciiUppercase (c : Char) : Bool :=
  decide ('A' ≤ c) && decide (c ≤ 'Z')

/-- Embedding of `IataCode::new`.  The Rust guard is
`code.len() <= 3 && code.chars().all(|c| c.is_ascii_uppercase())`; on the
accepted strings every character is ASCII, where the byte length used by
`str::len` coincides with the character count used here. -/
def IataCode.new (code : String) : Except String String :=
  if code.length ≤ 3 && code.all isAsciiUppercase then
    .ok code
  else
    .error ("Invalid ITATA code: " ++ code)

/-! ## Token cache, sequential model (src/utils.rs, `get_bearer_token`)

`Instant` is modelled as a natural number of seconds.  The two
`Instant::now()` calls of the function may observe different times
(`now1` on the read-locked fast path, `now2` on the re-check inside the
write lock).  The authentication exchange is the input `auth`, a function
of the client identity (`client_id`, `client_secret`); `.error` covers a
network error, a non-success status, and a malformed payload alike, since
all three leave the function through `?` before the store. -/

structure OAuthTokenResponse where
  access_token : String
  token_type : String
  expires_in : Nat
  deriving DecidableEq, Repr

structure TokenCache where
  token : OAuthTokenResponse
  expiry : Nat
  deriving DecidableEq, Repr

/-- What one call of `get_bearer_token` produces: the value returned to the
caller, the cache contents after the call, and whether the authentication
exchange was performed. -/
structure TokenCallResult where
  result : Except String String
  cacheAfter : Option TokenCache
  exchanged : Bool
  deriving Repr

/-- The validity test of the source: the cached expiry lies more than the
30-second safety margin past the observed time. -/
def entryValid (entry : TokenCache) (now : Nat) : Bool :=
  decide (now + 30 < entry.expiry)

/-- Embedding of `get_bearer_token`: fast path under the read lock at time
`now1`; on a miss, re-check under the write lock at time `now2`; on a second
miss perform the exchange and, only on success, store the fresh entry with
absolute expiry `now2 + expires_in`. -/
def get_bearer_token (cache : Option TokenCache) (now1 now2 : Nat)
    (auth : String → String → Except String OAuthTokenResponse)
    (client_id client_secret : String) : TokenCallResult :=
  match cache with
  | some entry =>
    if entryValid entry now1 then
      ⟨.ok entry.token.access_token, cache, false⟩
    else
      get_bearer_token_slow cache now2 auth client_id client_secret
  | none => get_bearer_token_slow cache now2 auth client_id client_secret
where
  get_bearer_token_slow (cache : Option TokenCache) (now2 : Nat)
      (auth : String → String → Except String OAuthTokenResponse)
      (client_id client_secret : String) : TokenCallResult :=
    match cache with
    | some entry =>
      if entryValid entry now2 then
        ⟨.ok entry.token.access_token, cache, false⟩
      else
        match auth client_id client_secret with
        | .error e => ⟨.error e, cache, true⟩
        | .ok token =>
          ⟨.ok token.access_token, some ⟨token, now2 + token.expires_in⟩, true⟩
    | none =>
      match auth client_id client_secret with
      | .error e => ⟨.error e, cache, true⟩
      | .ok token =>
        ⟨.ok token.access_token, some ⟨token, now2 + token.expires_in⟩, true⟩

/-! ## Flight mapping (src/api_requests/flights/amadeus.rs, `flights_between`)

The HTTP call and JSON deserialization are the network boundary; the
embedding covers the stage after a successful response parse: mapping each
`AmadeusFlightOffer` of the provider payload to a `Flight` and wrapping the
list in `Ok`. -/

structure AmadeusPrice where
  currency : String
  total : String
  deriving DecidableEq, Repr

structure AmadeusEndpoint where
  iata_code : String
  at_instant : String -- field named `at` in the source; `at` is reserved here
  deriving DecidableEq, Repr

structure AmadeusSegment where
  departure : AmadeusEndpoint
  arrival : AmadeusEndpoint
  carrier_code : String
  number : String
  duration : String
  deriving DecidableEq, Repr

structure AmadeusItinerary where
  duration : String
  segments : List AmadeusSegment
  deriving DecidableEq, Repr

structure AmadeusFlightOffer where
  id : String
  price : AmadeusPrice
  itineraries : List AmadeusItinerary
  deriving DecidableEq, Repr

structure AmadeusFlightResponse where
  data : List AmadeusFlightOffer
  deriving DecidableEq, Repr

structure Endpoint where
  iata_code : String
  at_instant : String -- field named `at` in the source; `at` is reserved here
  deriving DecidableEq, Repr

structure Segment where
  departure : Endpoint
  arrival : Endpoint
  carrier_code : String
  number : String
  duration : String
  deriving DecidableEq, Repr

structure Itinerary where
  duration : String
  segments : List Segment
  deriving DecidableEq, Repr

structure Flight (A : Type) where
  id : String
  price : Currency A
  itineraries : List Itinerary
  deriving DecidableEq, Repr

/-- The per-offer closure of `flights_between`:
`Currency::parse_currency(..).unwrap_or(Currency::Usd(0.0))` and a
field-by-field copy of the itineraries.  `zero` stands for the `0.0`
literal of the fallback. -/
def mapOffer {A : Type} (parseAmount : String → Option A) (zero : A)
    (offer : AmadeusFlightOffer) : Flight A :=
  { id := offer.id
    price :=
      match parse_currency parseAmount offer.price.currency offer.price.total with
      | .ok c => c
      | .error _ => .Usd zero
    itineraries := offer.itineraries.map fun iti =>
      { duration := iti.duration
        segments := iti.segments.map fun seg =>
          { departure := ⟨seg.departure.iata_code, seg.departure.at_instant⟩
            arrival := ⟨seg.arrival.iata_code, seg.arrival.at_instant⟩
            carrier_code := seg.carrier_code
            number := seg.number
            duration := seg.duration } } }

/-- The tail of `flights_between` after a successful HTTP status and JSON
parse: map every offer and return `Ok`. -/
def flights_between_fromResponse {A : Type} (parseAmount : String → Option A)
    (zero : A) (response : AmadeusFlightResponse) :
    Except String (List (Flight A)) :=
  .ok (response.data.map (mapOffer parseAmount zero))

/-! ## plan_tour result combination (src/function.rs, `plan_tour`)

`plan_tour` launches `flights_between`, `get_site_seeing` and
`hotels_in_city` and awaits all three with `join!`, so every invocation
runs to completion and the three completed outcomes are available.  The
combination stage then builds the prompt with
`to_string_pretty(&flights?).., to_string_pretty(&hotels?)..,
to_string_pretty(&site_seeing?)..`; format arguments evaluate left to
right, so the first error among flights, hotels, site_seeing is returned
from `plan_tour` via `?`.  Successful payloads are carried as their
pretty-printed strings (`to_string_pretty` on these data types cannot
fail). -/

def plan_tour_combine (source destination : String)
    (flights hotels site_seeing : Except String String) :
    Except String String :=
  match flights with
  | .error e => .error e
  | .ok f =>
    match hotels with
    | .error e => .error e
    | .ok h =>
      match site_seeing with
      | .error e => .error e
      | .ok s =>
        .ok ("I want to go " ++ destination ++ " from " ++ source ++
          ".\n# Flights available are as follows:\n" ++ f ++
          "\n# Hotels in " ++ destination ++ ":\n" ++ h ++
          "\n# The sites to be seen:\n" ++ s)

/-! ## Orchestration loop (src/main.rs, `stream_handler`)

The spawned task of `stream_handler` repeatedly calls `handle_request`,
forwards each `Ok` stream item to the channel as one serialized chunk,
only logs `Err` stream items (`eprintln!`, nothing is sent), then breaks
when the last chat of the resulting session has no function call, or sends
the error text and breaks when `handle_request` fails.  The embedding keeps
the delivered chunks abstractly as either a data chunk (the serialized
parts of one item plus the separator) or an error chunk (`e.to_string()`).
The recursion is indexed by fuel and counts `handle_request` invocations;
the source loop has no intrinsic bound of its own. -/

structure Chat where
  parts : List String
  hasFunctionCall : Bool
  deriving DecidableEq, Repr

structure Session where
  chats : List Chat
  deriving DecidableEq, Repr

/-- What `handle_request` returns on success, as observed by the loop: the
stream items (each `Ok` item contributes `data.get_chat().parts()`, each
`Err` item its error text) and the session the stream ends with
(`get_session_owned`). -/
structure ResponseStream where
  items : List (Except String (List String))
  finalSession : Session
  deriving Repr

inductive OutChunk where
  | data (parts : List String)
  | err (msg : String)
  deriving DecidableEq, Repr

inductive LoopResult where
  | terminal (sent : List OutChunk) (final : Session) (calls : Nat)
  | errored (sent : List OutChunk) (calls : Nat)
  | panicked (sent : List OutChunk) (calls : Nat)
  | fuelOut (sent : List OutChunk) (calls : Nat)
  deriving DecidableEq, Repr

/-- The body of the `while let Some(..) = response_stream.next()` loop:
`Ok(data)` items are serialized and sent, `Err(error)` items are only
printed to stderr, so they contribute no chunk. -/
def emitItems (items : List (Except String (List String))) : List OutChunk :=
  items.filterMap fun it =>
    match it with
    | .ok parts => some (.data parts)
    | .error _ => none

/-- The `loop` of the task spawned by `stream_handler`.  One iteration:
call `handle_request`; on `Err((session, e))` send `e.to_string()` and
break; on `Ok` forward the items, then inspect
`get_session().get_last_chat().unwrap().has_function_call()` — a missing
last chat panics the task, `true` re-enters the loop with the updated
session, `false` breaks normally. -/
def streamLoop (hr : Session → Except (Session × String) ResponseStream) :
    Nat → Session → List OutChunk → Nat → LoopResult
  | 0, _, sent, calls => .fuelOut sent calls
  | fuel + 1, s, sent, calls =>
    match hr s with
    | .error (_, e) => .errored (sent ++ [.err e]) (calls + 1)
    | .ok rs =>
      match (rs.finalSession.chats).getLast? with
      | none => .panicked (sent ++ emitItems rs.items) (calls + 1)
      | some c =>
        if c.hasFunctionCall then
          streamLoop hr fuel rs.finalSession (sent ++ emitItems rs.items) (calls + 1)
        else
          .terminal (sent ++ emitItems rs.items) rs.finalSession (calls + 1)

/-- Number of tool-resolution turns recorded in a session: the chats that
carry a function call. -/
def resolutionIters (s : Session) : Nat :=
  (s.chats.filter fun c => c.hasFunctionCall).length

/-- Modelled from the spec: `handle_request` is declared in
`src/function.rs` and called from `src/main.rs`, but its definition is not
in this snapshot.  Per §4.3 it performs one model call per invocation
(`model` below, fed the current session and returning the response stream
with the grown session) and enforces the resolution limit: once the
configured maximum number of consecutive tool-resolution iterations
(`maxRes`) is reached, it fails with the session and a
"resolution limit exceeded" error instead of calling the model again. -/
def handle_request (maxRes : Nat) (model : Session → ResponseStream)
    (s : Session) : Except (Session × String) ResponseStream :=
  if maxRes ≤ resolutionIters s then
    .error (s, "resolution limit exceeded")
  else
    .ok (model s)

/-- The chunks a loop outcome delivered. -/
def LoopResult.sentChunks : LoopResult → List OutChunk
  | .terminal sent _ _ => sent
  | .errored sent _ => sent
  | .panicked sent _ => sent
  | .fuelOut sent _ => sent

/-! ## Token cache, concurrent model (src/utils.rs, `TOKEN_STORAGE`)

For the single-flight claim the cache is a labelled transition system over
N caller tasks racing at one instant (`P.now`): each task first evaluates
the read-locked fast path, then, on a miss, the write-locked section.
`RwLock` makes each of the two sections atomic with respect to the cache:
the read section only reads, and the write section (the re-check, the
exchange and the store) holds the lock exclusively throughout, so an
arbitrary interleaving of these atomic sections is a faithful model.  The
exchange succeeds deterministically with token `P.authToken` and lifetime
`P.expiresIn` (the claim presupposes a succeeding provider). -/

structure AuthParams where
  now : Nat
  authToken : String
  expiresIn : Nat
  deriving DecidableEq, Repr

/-- Program counter of one caller task of `get_bearer_token`. -/
inductive TaskState where
  | start
  | slow
  | done (result : String)
  deriving DecidableEq, Repr

structure CacheState where
  cache : Option TokenCache
  fetched : Nat
  threads : List TaskState
  deriving DecidableEq, Repr

/-- The fast-path validity test lifted to the `Option` held by
`TOKEN_STORAGE`. -/
def validCache (cache : Option TokenCache) (now : Nat) : Bool :=
  match cache with
  | some entry => entryValid entry now
  | none => false

/-- The entry the (successful) exchange stores:
`expiry = Instant::now() + Duration::from_secs(token.expires_in)`. -/
def freshEntry (P : AuthParams) : TokenCache :=
  ⟨⟨P.authToken, "Bearer", P.expiresIn⟩, P.now + P.expiresIn⟩

/-- One atomic section of one caller task.
`fastHit`/`fastMiss` are the read-locked fast path; `slowHit` is the
re-check inside the write lock finding a now-valid entry (no network
call); `slowFetch` is the exchange plus store inside the write lock. -/
inductive CacheStep (P : AuthParams) : CacheState → CacheState → Prop where
  | fastHit (s : CacheState) (i : Nat) (e : TokenCache)
      (ht : s.threads.get? i = some .start) (hc : s.cache = some e)
      (hv : entryValid e P.now = true) :
      CacheStep P s ⟨s.cache, s.fetched, s.threads.set i (.done e.token.access_token)⟩
  | fastMiss (s : CacheState) (i : Nat)
      (ht : s.threads.get? i = some .start)
      (hv : validCache s.cache P.now = false) :
      CacheStep P s ⟨s.cache, s.fetched, s.threads.set i .slow⟩
  | slowHit (s : CacheState) (i : Nat) (e : TokenCache)
      (ht : s.threads.get? i = some .slow) (hc : s.cache = some e)
      (hv : entryValid e P.now = true) :
      CacheStep P s ⟨s.cache, s.fetched, s.threads.set i (.done e.token.access_token)⟩
  | slowFetch (s : CacheState) (i : Nat)
      (ht : s.threads.get? i = some .slow)
      (hv : validCache s.cache P.now = false) :
      CacheStep P s
        ⟨some (freshEntry P), s.fetched + 1, s.threads.set i (.done P.authToken)⟩

/-- Invariant of the race from an invalid initial cache: either nobody has
fetched yet (cache untouched, no task finished), or exactly one exchange
happened, the cache holds the fresh entry, and every finished task got the
fresh token. -/
def CacheInv (P : AuthParams) (init : Option TokenCache) (s : CacheState) : Prop :=
  (s.cache = init ∧ s.fetched = 0 ∧
    ∀ t ∈ s.threads, ∀ r, t ≠ TaskState.done r)
  ∨ (s.cache = some (freshEntry P) ∧ s.fetched = 1 ∧
    ∀ t ∈ s.threads, ∀ r, t = TaskState.done r → r = P.authToken)

/-! ## Concrete instances used by counterexamples and witnesses -/

/-- An authentication endpoint that issues a different token to each of two
client identities, to probe whether the cache distinguishes identities. -/
def authRegistry : String → String → Except String OAuthTokenResponse :=
  fun cid _ =>
    if cid = "clientA" then .ok ⟨"tokenA", "Bearer", 1799⟩
    else .ok ⟨"tokenB", "Bearer", 1799⟩

/-- The items of a response stream one of whose items is an error. -/
def dropItems : List (Except String (List String)) :=
  [.ok ["alpha"], .error "chunk transfer failed", .ok ["beta"]]

/-- A `handle_request` behaviour whose stream yields an `Err` item between
two `Ok` items and ends in a session without a function call. -/
def hrDropExample : Session → Except (Session × String) ResponseStream :=
  fun _ => .ok ⟨dropItems, ⟨[⟨["alpha", "beta"], false⟩]⟩⟩

/-- A model that requests a tool call on every turn: each call appends one
chat carrying a function call and streams nothing. -/
def alwaysToolModel : Session → ResponseStream :=
  fun s => ⟨[], ⟨s.chats ++ [⟨[], true⟩]⟩⟩

/-- A model that answers with plain text and no function call. -/
def plainReplyModel : Session → ResponseStream :=
  fun s => ⟨[.ok ["here is your itinerary"]], ⟨s.chats ++ [⟨["here is your itinerary"], false⟩]⟩⟩

/-! ## Theorems -/

/-- C10: `IataCode::new` returns `Ok` exactly when the string has length at
most 3 and every character is an ASCII uppercase letter (so the empty
string and one- or two-letter uppercase strings are accepted), and returns
`Err` for every other string. -/
theorem iata_new_ok_iff (code : String) :
    (IataCode.new code = .ok code ∨
      IataCode.new code = .error ("Invalid ITATA code: " ++ code)) ∧
    (IataCode.new code = .ok code ↔
      code.length ≤ 3 ∧ code.all isAsciiUppercase = true) := by
  unfold IataCode.new
  by_cases h : (code.length ≤ 3 ∧ code.all isAsciiUppercase = true)
  · obtain ⟨h1, h2⟩ := h
    rw [if_pos]
    · exact ⟨Or.inl rfl, by simp [h1, h2]⟩
    · simp [h1, h2]
  · rw [if_neg]
    · refine ⟨Or.inr rfl, ?_⟩
      constructor
      · intro hcontra
        exact absurd hcontra (by simp)
      · intro hcond
        exact absurd hcond h
    · simpa using fun h1 h2 => h ⟨h1, h2⟩

/-- C9: every provider flight offer whose currency code (uppercased) is not
USD, INR or EUR, or whose price total fails to parse, is mapped to a
`Flight` priced `Usd(0.0)`, and `flights_between` still returns success for
the whole response. -/
theorem zero_price_fallback {A : Type} (parseAmount : String → Option A)
    (zero : A) (response : AmadeusFlightResponse) (offer : AmadeusFlightOffer)
    (hbad : (to_uppercase offer.price.currency ≠ "USD" ∧
        to_uppercase offer.price.currency ≠ "INR" ∧
        to_uppercase offer.price.currency ≠ "EUR") ∨
      parseAmount offer.price.total = none) :
    (mapOffer parseAmount zero offer).price = Currency.Usd zero ∧
    flights_between_fromResponse parseAmount zero response =
      .ok (response.data.map (mapOffer parseAmount zero)) := by
  refine ⟨?_, rfl⟩
  unfold mapOffer parse_currency
  rcases hbad with ⟨h1, h2, h3⟩ | hnone
  · cases hp : parseAmount offer.price.total with
    | none => simp [hp]
    | some a => simp [hp, h1, h2, h3]
  · simp [hnone]

/-- C9 witness: a concrete offer in an unsupported currency maps to a
zero `Usd` price inside a successful result. -/
theorem zero_price_fallback_witness :
    (mapOffer (fun _ => some 5) 0
        ⟨"off1", ⟨"GBP", "120.00"⟩, []⟩).price = Currency.Usd 0 ∧
    flights_between_fromResponse (fun _ => some 5) 0
        ⟨[⟨"off1", ⟨"GBP", "120.00"⟩, []⟩]⟩ =
      .ok (([⟨"off1", ⟨"GBP", "120.00"⟩, []⟩] :
        List AmadeusFlightOffer).map (mapOffer (fun _ => some 5) 0)) :=
  zero_price_fallback (fun _ => some (5 : Nat)) 0
    ⟨[⟨"off1", ⟨"GBP", "120.00"⟩, []⟩]⟩ ⟨"off1", ⟨"GBP", "120.00"⟩, []⟩
    (Or.inl (by refine ⟨?_, ?_, ?_⟩ <;> decide))

/-- C6 counterexample: with the flights and site lookups succeeding and the
hotel lookup failing, the combination stage of `plan_tour` returns the
error for the whole turn instead of a combined result with the failing
call marked as an error. -/
theorem plan_tour_partial_failure_counterexample :
    plan_tour_combine "Ranchi" "Goa" (.ok "FLIGHTS") (.error "hotel lookup failed")
        (.ok "SITES") = .error "hotel lookup failed" := rfl

/-- C6 amended: all three tool invocations of a `plan_tour` turn run to
completion (`join!` awaits every one of them), but if any completed
outcome is an error the turn fails with the first error in evaluation
order (flights, hotels, site_seeing) instead of producing a combined
result with the failing call marked. -/
theorem plan_tour_first_error_aborts (source destination e : String)
    (fl ho si : Except String String)
    (herr : fl = .error e ∨ (fl.isOk = true ∧ ho = .error e) ∨
      (fl.isOk = true ∧ ho.isOk = true ∧ si = .error e)) :
    plan_tour_combine source destination fl ho si = .error e := by
  rcases herr with h | ⟨hok, h⟩ | ⟨hok1, hok2, h⟩
  · subst h; rfl
  · cases fl with
    | error ef => simp [Except.isOk, Except.toBool] at hok
    | ok f => subst h; rfl
  · cases fl with
    | error ef => simp [Except.isOk, Except.toBool] at hok1
    | ok f =>
      cases ho with
      | error eh => simp [Except.isOk, Except.toBool] at hok2
      | ok h2 => subst h; rfl

/-- C6 amended witness: the failing site lookup aborts a turn whose flight
and hotel lookups succeeded. -/
theorem plan_tour_first_error_aborts_witness :
    plan_tour_combine "Ranchi" "Goa" (.ok "FLIGHTS") (.ok "HOTELS")
        (.error "site lookup failed") = .error "site lookup failed" :=
  plan_tour_first_error_aborts "Ranchi" "Goa" "site lookup failed"
    (.ok "FLIGHTS") (.ok "HOTELS") (.error "site lookup failed")
    (Or.inr (Or.inr ⟨rfl, rfl, rfl⟩))

/-- C3: when a cached entry exists whose expiry lies more than 30 seconds
past the observed time, `get_bearer_token` returns that entry's access
token at once, performs no exchange and leaves the cache unchanged. -/
theorem token_fast_path (cache : Option TokenCache) (entry : TokenCache)
    (now1 now2 : Nat)
    (auth : String → String → Except String OAuthTokenResponse)
    (cid csec : String)
    (hc : cache = some entry) (hv : entryValid entry now1 = true) :
    get_bearer_token cache now1 now2 auth cid csec =
      ⟨.ok entry.token.access_token, cache, false⟩ := by
  subst hc
  simp [get_bearer_token, hv]

/-- C3 witness: a concrete valid entry is served from the cache with no
exchange. -/
theorem token_fast_path_witness :
    get_bearer_token (some ⟨⟨"tok", "Bearer", 1799⟩, 1799⟩) 100 100
        (fun _ _ => .error "offline") "cid" "csec" =
      ⟨.ok "tok", some ⟨⟨"tok", "Bearer", 1799⟩, 1799⟩, false⟩ :=
  token_fast_path (some ⟨⟨"tok", "Bearer", 1799⟩, 1799⟩) ⟨⟨"tok", "Bearer", 1799⟩, 1799⟩
    100 100 (fun _ _ => .error "offline") "cid" "csec" rfl (by decide)

/-- C4: whenever the authentication exchange is actually performed and
fails, the call surfaces that error and the cache is left exactly as it
was — a failed refresh never evicts or replaces the previous entry. -/
theorem token_failed_refresh (cache : Option TokenCache) (now1 now2 : Nat)
    (auth : String → String → Except String OAuthTokenResponse)
    (cid csec e : String)
    (ha : auth cid csec = .error e)
    (hx : (get_bearer_token cache now1 now2 auth cid csec).exchanged = true) :
    get_bearer_token cache now1 now2 auth cid csec = ⟨.error e, cache, true⟩ := by
  cases cache with
  | none => simp [get_bearer_token, get_bearer_token.get_bearer_token_slow, ha]
  | some entry =>
    by_cases h1 : entryValid entry now1 = true
    · simp [get_bearer_token, h1] at hx
    · by_cases h2 : entryValid entry now2 = true
      · simp [get_bearer_token, get_bearer_token.get_bearer_token_slow,
          h1, h2] at hx
      · simp [get_bearer_token, get_bearer_token.get_bearer_token_slow,
          h1, h2, ha]

/-- C4 witness: a failing exchange on an empty cache reports the error and
leaves the cache empty. -/
theorem token_failed_refresh_witness :
    get_bearer_token none 0 0 (fun _ _ => .error "HTTP 401") "cid" "csec" =
      ⟨.error "HTTP 401", none, true⟩ :=
  token_failed_refresh none 0 0 (fun _ _ => .error "HTTP 401") "cid" "csec"
    "HTTP 401" rfl rfl

/-- C5 counterexample: the cache is a single global slot not keyed by
identity.  After identity clientA populates it, a call by clientB is
served clientA's token from the cache without any exchange, although the
authentication endpoint would issue clientB the distinct token tokenB. -/
theorem token_cache_identity_counterexample :
    (get_bearer_token none 0 0 authRegistry "clientA" "secretA").cacheAfter =
      some ⟨⟨"tokenA", "Bearer", 1799⟩, 1799⟩ ∧
    (get_bearer_token (some ⟨⟨"tokenA", "Bearer", 1799⟩, 1799⟩) 10 10 authRegistry
        "clientB" "secretB").result = .ok "tokenA" ∧
    (get_bearer_token (some ⟨⟨"tokenA", "Bearer", 1799⟩, 1799⟩) 10 10 authRegistry
        "clientB" "secretB").exchanged = false ∧
    authRegistry "clientB" "secretB" = .ok ⟨"tokenB", "Bearer", 1799⟩ ∧
    ("tokenA" : String) ≠ "tokenB" := by
  refine ⟨rfl, rfl, rfl, rfl, by decide⟩

/-- C5 amended: the credential cache holds at most one entry globally and
consults no identity: whenever the single cached entry is valid, callers
with any two identities receive the same secret — the one the cached entry
was obtained with — and no exchange happens for either. -/
theorem token_cache_shared_across_identities (cache : Option TokenCache)
    (entry : TokenCache) (now1 now2 : Nat)
    (auth : String → String → Except String OAuthTokenResponse)
    (id1 sec1 id2 sec2 : String)
    (hc : cache = some entry) (hv : entryValid entry now1 = true) :
    get_bearer_token cache now1 now2 auth id1 sec1 =
      get_bearer_token cache now1 now2 auth id2 sec2 ∧
    get_bearer_token cache now1 now2 auth id1 sec1 =
      ⟨.ok entry.token.access_token, cache, false⟩ := by
  subst hc
  simp [get_bearer_token, hv]

/-- C5 amended witness: clientB and clientC both receive clientA's cached
token. -/
theorem token_cache_shared_across_identities_witness :
    get_bearer_token (some ⟨⟨"tokenA", "Bearer", 1799⟩, 1799⟩) 10 10 authRegistry
        "clientB" "secretB" =
      get_bearer_token (some ⟨⟨"tokenA", "Bearer", 1799⟩, 1799⟩) 10 10 authRegistry
        "clientC" "secretC" ∧
    get_bearer_token (some ⟨⟨"tokenA", "Bearer", 1799⟩, 1799⟩) 10 10 authRegistry
        "clientB" "secretB" =
      ⟨.ok "tokenA", some ⟨⟨"tokenA", "Bearer", 1799⟩, 1799⟩, false⟩ :=
  token_cache_shared_across_identities
    (some ⟨⟨"tokenA", "Bearer", 1799⟩, 1799⟩) ⟨⟨"tokenA", "Bearer", 1799⟩, 1799⟩
    10 10 authRegistry "clientB" "secretB" "clientC" "secretC" rfl (by decide)

/-- C8: if the model response to the submitted session carries no function
call in its final chat (and the session is within the resolution limit),
the loop of `stream_handler` breaks after exactly one `handle_request`
invocation — one model call — returning the final session and the chunks
emitted for that response. -/
theorem plain_reply_single_call (maxRes : Nat) (m : Session → ResponseStream)
    (s0 : Session) (c : Chat) (fuel : Nat)
    (hlim : resolutionIters s0 < maxRes)
    (hlast : (m s0).finalSession.chats.getLast? = some c)
    (hfc : c.hasFunctionCall = false) :
    streamLoop (handle_request maxRes m) (fuel + 1) s0 [] 0 =
      .terminal (emitItems (m s0).items) (m s0).finalSession 1 := by
  have hr : handle_request maxRes m s0 = .ok (m s0) := by
    unfold handle_request
    rw [if_neg (by omega)]
  simp [streamLoop, hr, hlast, hfc]

/-- C8 witness: a plain-text model reply terminates the loop in one call
with its fragment delivered. -/
theorem plain_reply_single_call_witness :
    streamLoop (handle_request 5 plainReplyModel) 3 ⟨[]⟩ [] 0 =
      .terminal (emitItems (plainReplyModel ⟨[]⟩).items)
        (plainReplyModel ⟨[]⟩).finalSession 1 :=
  plain_reply_single_call 5 plainReplyModel ⟨[]⟩
    ⟨["here is your itinerary"], false⟩ 2 (by decide) rfl rfl

/-- Auxiliary induction for the resolution limit: under a model that adds a
function-call chat on every call, the loop runs `maxRes - resolutionIters s`
further successful iterations and then fails with the limit error. -/
theorem resolution_limit_loop_aux (maxRes : Nat) (m : Session → ResponseStream)
    (hm : ∀ s, ∃ c, (m s).finalSession.chats = s.chats ++ [c] ∧
      c.hasFunctionCall = true) :
    ∀ fuel s sent calls, maxRes - resolutionIters s + 1 ≤ fuel →
    ∃ sent2, streamLoop (handle_request maxRes m) fuel s sent calls =
      .errored (sent2 ++ [.err "resolution limit exceeded"])
        (calls + (maxRes - resolutionIters s) + 1) := by
  intro fuel
  induction fuel with
  | zero => intro s sent calls h; omega
  | succ n ih =>
    intro s sent calls h
    by_cases hle : maxRes ≤ resolutionIters s
    · have hr : handle_request maxRes m s =
          .error (s, "resolution limit exceeded") := by
        unfold handle_request
        rw [if_pos hle]
      have hz : maxRes - resolutionIters s = 0 := by omega
      refine ⟨sent, ?_⟩
      simp [streamLoop, hr, hz]
    · have hr : handle_request maxRes m s = .ok (m s) := by
        unfold handle_request
        rw [if_neg hle]
      obtain ⟨c, hchats, hfc⟩ := hm s
      have hlast : (m s).finalSession.chats.getLast? = some c := by
        rw [hchats]
        exact List.getLast?_concat _
      have hiters : resolutionIters (m s).finalSession = resolutionIters s + 1 := by
        unfold resolutionIters
        rw [hchats, List.filter_append]
        simp [hfc]
      have hfuel2 : maxRes - resolutionIters (m s).finalSession + 1 ≤ n := by
        rw [hiters]; omega
      obtain ⟨sent2, hres⟩ :=
        ih (m s).finalSession (sent ++ emitItems (m s).items) (calls + 1) hfuel2
      refine ⟨sent2, ?_⟩
      rw [hiters] at hres
      have harith : calls + 1 + (maxRes - (resolutionIters s + 1)) + 1 =
          calls + (maxRes - resolutionIters s) + 1 := by omega
      rw [harith] at hres
      simpa [streamLoop, hr, hlast, hfc] using hres

/-- C1: for every model that requests a tool call on every turn, the loop
of `stream_handler` over the (spec-modelled) `handle_request` terminates:
after at most the configured maximum number `maxRes` of tool-resolution
iterations it ends in its terminal error branch, with the distinguishable
"resolution limit exceeded" fragment as the last chunk delivered, after
exactly `maxRes + 1` `handle_request` invocations. -/
theorem resolution_limit_enforced (maxRes : Nat) (m : Session → ResponseStream)
    (s0 : Session) (fuel : Nat)
    (hm : ∀ s, ∃ c, (m s).finalSession.chats = s.chats ++ [c] ∧
      c.hasFunctionCall = true)
    (h0 : resolutionIters s0 = 0)
    (hfuel : maxRes + 1 ≤ fuel) :
    ∃ sent2, streamLoop (handle_request maxRes m) fuel s0 [] 0 =
      .errored (sent2 ++ [.err "resolution limit exceeded"]) (maxRes + 1) := by
  have := resolution_limit_loop_aux maxRes m hm fuel s0 [] 0 (by omega)
  simpa [h0] using this

/-- C1 witness: a model that always calls tools is cut off after 2
resolution iterations on a limit of 2. -/
theorem resolution_limit_enforced_witness :
    ∃ sent2, streamLoop (handle_request 2 alwaysToolModel) 3 ⟨[]⟩ [] 0 =
      .errored (sent2 ++ [.err "resolution limit exceeded"]) 3 :=
  resolution_limit_enforced 2 alwaysToolModel ⟨[]⟩ 3
    (fun s => ⟨⟨[], true⟩, rfl, rfl⟩) rfl (by omega)

/-- C7 counterexample: the loop delivers a terminal outcome although one
item of the response stream was an error — the error is only logged, never
sent, so the caller observes a normally completed stream with that
fragment silently missing. -/
theorem stream_drop_counterexample :
    hrDropExample ⟨[]⟩ = .ok ⟨dropItems, ⟨[⟨["alpha", "beta"], false⟩]⟩⟩ ∧
    Except.error "chunk transfer failed" ∈ dropItems ∧
    streamLoop hrDropExample 1 ⟨[]⟩ [] 0 =
      .terminal [.data ["alpha"], .data ["beta"]]
        ⟨[⟨["alpha", "beta"], false⟩]⟩ 1 ∧
    OutChunk.err "chunk transfer failed" ∉
      [OutChunk.data ["alpha"], OutChunk.data ["beta"]] := by
  refine ⟨rfl, ?_, rfl, by decide⟩
  simp [dropItems]

/-- C7 amended: a `handle_request` failure is surfaced to the caller as an
explicit error chunk and ends the loop, and every `Ok` item of a response
stream is delivered, in order, as a data chunk; but `Err` items within a
response stream are dropped with no error surfaced on the stream. -/
theorem stream_delivery_amended
    (hr : Session → Except (Session × String) ResponseStream)
    (fuel : Nat) (s : Session) (sent : List OutChunk) (calls : Nat) :
    match hr s with
    | .error (_, e) =>
        streamLoop hr (fuel + 1) s sent calls =
          .errored (sent ++ [.err e]) (calls + 1)
    | .ok rs =>
        ∃ tail, (streamLoop hr (fuel + 1) s sent calls).sentChunks =
          sent ++ (emitItems rs.items ++ tail) ∧
        emitItems rs.items = rs.items.filterMap fun it =>
          match it with
          | .ok parts => some (.data parts)
          | .error _ => none := by
  have hmono : ∀ f s2 sent2 calls2,
      ∃ tail, (streamLoop hr f s2 sent2 calls2).sentChunks = sent2 ++ tail := by
    intro f
    induction f with
    | zero =>
      intro s2 sent2 calls2
      exact ⟨[], by simp [streamLoop, LoopResult.sentChunks]⟩
    | succ n ih =>
      intro s2 sent2 calls2
      cases hres : hr s2 with
      | error pe =>
        exact ⟨[.err pe.2], by simp [streamLoop, hres, LoopResult.sentChunks]⟩
      | ok rs =>
        cases hlast : rs.finalSession.chats.getLast? with
        | none =>
          exact ⟨emitItems rs.items, by
            simp [streamLoop, hres, hlast, LoopResult.sentChunks]⟩
        | some c =>
          by_cases hfc : c.hasFunctionCall = true
          · obtain ⟨tail, htail⟩ :=
              ih rs.finalSession (sent2 ++ emitItems rs.items) (calls2 + 1)
            refine ⟨emitItems rs.items ++ tail, ?_⟩
            simp only [streamLoop, hres, hlast, hfc, if_true]
            rw [htail, List.append_assoc]
          · refine ⟨emitItems rs.items, ?_⟩
            simp [streamLoop, hres, hlast, hfc, LoopResult.sentChunks]
  cases hres : hr s with
  | error pe =>
    cases pe with
    | mk s2 e => simp [streamLoop, hres]
  | ok rs =>
    cases hlast : rs.finalSession.chats.getLast? with
    | none =>
      refine ⟨[], by simp [streamLoop, hres, hlast, LoopResult.sentChunks], rfl⟩
    | some c =>
      by_cases hfc : c.hasFunctionCall = true
      · obtain ⟨tail, htail⟩ :=
          hmono fuel rs.finalSession (sent ++ emitItems rs.items) (calls + 1)
        refine ⟨tail, ?_, rfl⟩
        simp only [streamLoop, hres, hlast, hfc, if_true]
        rw [htail, List.append_assoc]
      · refine ⟨[], by simp [streamLoop, hres, hlast, hfc, LoopResult.sentChunks], rfl⟩

/-- The number of caller tasks never changes along a step. -/
theorem cacheStep_threads_length {P : AuthParams} {s s2 : CacheState}
    (h : CacheStep P s s2) : s2.threads.length = s.threads.length := by
  cases h <;> simp

/-- The fresh entry passes the validity test whenever the declared lifetime
exceeds the 30-second margin. -/
theorem freshEntry_valid (P : AuthParams) (hexp : 30 < P.expiresIn) :
    entryValid (freshEntry P) P.now = true := by
  simp [entryValid, freshEntry]
  omega

/-- One atomic section preserves the single-flight invariant. -/
theorem cacheInv_step {P : AuthParams} {init : Option TokenCache}
    {s s2 : CacheState}
    (hinit : validCache init P.now = false) (hexp : 30 < P.expiresIn)
    (hinv : CacheInv P init s) (hstep : CacheStep P s s2) :
    CacheInv P init s2 := by
  cases hstep with
  | fastHit i e ht hc hv =>
    rcases hinv with ⟨hcache, hfetch, hthreads⟩ | ⟨hcache, hfetch, hthreads⟩
    · rw [hcache] at hc
      rw [hc] at hinit
      simp [validCache] at hinit
      rw [hinit] at hv
      cases hv
    · right
      refine ⟨hcache, hfetch, ?_⟩
      intro t hmem r hdone
      rcases List.mem_or_eq_of_mem_set hmem with hold | hnew
      · exact hthreads t hold r hdone
      · have he : e = freshEntry P := by
          rw [hcache] at hc
          exact (Option.some.inj hc.symm)
        rw [hnew] at hdone
        rw [he] at hdone
        exact (TaskState.done.inj hdone).symm
  | fastMiss i ht hv =>
    rcases hinv with ⟨hcache, hfetch, hthreads⟩ | ⟨hcache, hfetch, hthreads⟩
    · left
      refine ⟨hcache, hfetch, ?_⟩
      intro t hmem r
      rcases List.mem_or_eq_of_mem_set hmem with hold | hnew
      · exact hthreads t hold r
      · rw [hnew]
        intro hcontra
        cases hcontra
    · rw [hcache] at hv
      rw [show validCache (some (freshEntry P)) P.now = entryValid (freshEntry P) P.now from rfl,
        freshEntry_valid P hexp] at hv
      cases hv
  | slowHit i e ht hc hv =>
    rcases hinv with ⟨hcache, hfetch, hthreads⟩ | ⟨hcache, hfetch, hthreads⟩
    · rw [hcache] at hc
      rw [hc] at hinit
      simp [validCache] at hinit
      rw [hinit] at hv
      cases hv
    · right
      refine ⟨hcache, hfetch, ?_⟩
      intro t hmem r hdone
      rcases List.mem_or_eq_of_mem_set hmem with hold | hnew
      · exact hthreads t hold r hdone
      · have he : e = freshEntry P := by
          rw [hcache] at hc
          exact (Option.some.inj hc.symm)
        rw [hnew] at hdone
        rw [he] at hdone
        exact (TaskState.done.inj hdone).symm
  | slowFetch i ht hv =>
    rcases hinv with ⟨hcache, hfetch, hthreads⟩ | ⟨hcache, hfetch, hthreads⟩
    · right
      refine ⟨rfl, by rw [hfetch], ?_⟩
      intro t hmem r hdone
      rcases List.mem_or_eq_of_mem_set hmem with hold | hnew
      · exact absurd hdone (hthreads t hold r)
      · rw [hnew] at hdone
        exact (TaskState.done.inj hdone).symm
    · rw [hcache] at hv
      rw [show validCache (some (freshEntry P)) P.now = entryValid (freshEntry P) P.now from rfl,
        freshEntry_valid P hexp] at hv
      cases hv

/-- C2 (token cache single-flight): from an invalid-or-empty cache, for any
interleaving of `N ≥ 1` concurrent callers racing at one instant through
`get_bearer_token`, once all callers finished exactly one authentication
exchange was issued, every caller received the freshly fetched secret, and
the stored fresh entry is valid (non-expired past the safety margin). -/
theorem token_single_flight (P : AuthParams) (init : Option TokenCache)
    (N : Nat) (final : CacheState)
    (hinit : validCache init P.now = false) (hexp : 30 < P.expiresIn)
    (hN : 1 ≤ N)
    (hrun : Relation.ReflTransGen (CacheStep P)
      ⟨init, 0, List.replicate N .start⟩ final)
    (hdone : ∀ t ∈ final.threads, ∃ r, t = TaskState.done r) :
    final.fetched = 1 ∧
    (∀ t ∈ final.threads, t = TaskState.done P.authToken) ∧
    final.cache = some (freshEntry P) ∧
    entryValid (freshEntry P) P.now = true := by
  have hlen : final.threads.length = N := by
    clear hdone
    induction hrun with
    | refl => simp
    | tail hsteps hstep ih => rw [cacheStep_threads_length hstep, ih]
  have hinv : CacheInv P init final := by
    have hstart : CacheInv P init ⟨init, 0, List.replicate N .start⟩ := by
      left
      refine ⟨rfl, rfl, ?_⟩
      intro t hmem r
      rw [List.eq_of_mem_replicate hmem]
      intro hcontra
      cases hcontra
    clear hdone hlen
    induction hrun with
    | refl => exact hstart
    | tail hsteps hstep ih => exact cacheInv_step hinit hexp ih hstep
  have hne : final.threads ≠ [] := by
    intro hcontra
    rw [hcontra] at hlen
    simp at hlen
    omega
  obtain ⟨r0, hr0⟩ := hdone (final.threads.head hne) (List.head_mem hne)
  rcases hinv with ⟨hcache, hfetch, hthreads⟩ | ⟨hcache, hfetch, hthreads⟩
  · exact absurd hr0 (hthreads _ (List.head_mem hne) r0)
  · refine ⟨hfetch, ?_, hcache, freshEntry_valid P hexp⟩
    intro t hmem
    obtain ⟨r, hr⟩ := hdone t hmem
    rw [hr, hthreads t hmem r hr]

/-- C2 witness: a single caller misses the fast path, fetches inside the
write lock, and ends done with the fresh token after one exchange. -/
theorem token_single_flight_witness :
    (⟨some (freshEntry ⟨0, "tok", 60⟩), 1,
        [TaskState.done "tok"]⟩ : CacheState).fetched = 1 ∧
    (∀ t ∈ (⟨some (freshEntry ⟨0, "tok", 60⟩), 1,
        [TaskState.done "tok"]⟩ : CacheState).threads,
      t = TaskState.done (⟨0, "tok", 60⟩ : AuthParams).authToken) ∧
    (⟨some (freshEntry ⟨0, "tok", 60⟩), 1,
        [TaskState.done "tok"]⟩ : CacheState).cache =
      some (freshEntry ⟨0, "tok", 60⟩) ∧
    entryValid (freshEntry ⟨0, "tok", 60⟩) (⟨0, "tok", 60⟩ : AuthParams).now = true :=
  token_single_flight ⟨0, "tok", 60⟩ none 1
    ⟨some (freshEntry ⟨0, "tok", 60⟩), 1, [TaskState.done "tok"]⟩
    rfl (by decide) (by omega)
    (Relation.ReflTransGen.head
      (CacheStep.fastMiss ⟨none, 0, [TaskState.start]⟩ 0 rfl rfl)
      (Relation.ReflTransGen.single
        (CacheStep.slowFetch ⟨none, 0, [TaskState.slow]⟩ 0 rfl rfl)))
    (by
      intro t hmem
      rw [List.mem_singleton] at hmem
      exact ⟨"tok", hmem⟩)

end Explorify
